import Mathlib

/-!
Verification development for the django-detour redirect engine
(`django_detour/redirects.py` and `django_detour/middleware.py`).

The Python code is shallowly embedded: pure attribute computations become
Lean functions, the `RedirectMap` dict-of-dicts becomes an association
list of association lists with dict semantics (unique keys, insertion
order preserved, overwrite keeps the key's position), and Python
exceptions are modelled with `Except PyErr`.  Recursions that Python
bounds only dynamically (`clean_circular`'s BFS while-loop and the
`get_circular` reconstruction) take an explicit fuel argument; the
top-level entry points pass a fuel that is generously larger than the
bound the Python termination argument yields, and `PyErr.fuel` is kept
distinct from every real Python exception so the two can never be
confused in a theorem.
-/

/-- Python exceptions (and the fuel artifact of the embedding). -/
inductive PyErr where
  | attributeError
  | typeError
  | valueError
  | keyError
  | assertionError
  | fuel
deriving DecidableEq, Repr

/-- Association-list lookup with Python `dict.get` semantics: first
(and, for dict-like lists, only) binding of the key. -/
def alook {α : Type} (l : List (String × α)) (k : String) : Option α :=
  match l with
  | [] => none
  | (k', v) :: rest => if k' = k then some v else alook rest k

/-- Association-list update with Python `dict.__setitem__` semantics:
an existing key keeps its position, a new key is appended. -/
def setAssoc {α : Type} (l : List (String × α)) (k : String) (v : α) : List (String × α) :=
  match l with
  | [] => [(k, v)]
  | (k', v') :: rest => if k' = k then (k, v) :: rest else (k', v') :: setAssoc rest k v

/-- Python truthiness test `not x` for an optional string:
true exactly for `None` and for the empty string. -/
def pyNot (s : Option String) : Bool :=
  match s with
  | none => true
  | some t => t = ""

/-- Decimal digit test used by the model of Python `int(str)`. -/
def isDigitChar (c : Char) : Bool := '0' ≤ c && c ≤ '9'

/-- Accumulating decimal reader for the model of Python `int(str)`. -/
def digitsValAux : List Char → Nat → Option Nat
  | [], acc => some acc
  | c :: cs, acc =>
      if isDigitChar c then digitsValAux cs (acc * 10 + (c.toNat - '0'.toNat)) else none

/-- Model of Python `int(str)`: optional surrounding whitespace, an
optional sign, then at least one decimal digit; anything else raises
`ValueError` (`none` here).  (Digit-group underscores are not modelled;
no claim depends on them.) -/
def int_of_string (s : String) : Option Int :=
  let ws : List Char := [' ', '\t', '\n', '\r']
  let cs := s.data.dropWhile (fun c => ws.contains c)
  let cs := (cs.reverse.dropWhile (fun c => ws.contains c)).reverse
  match cs with
  | [] => none
  | '-' :: rest =>
      if rest.isEmpty then none else (digitsValAux rest 0).map (fun n => -(n : Int))
  | '+' :: rest =>
      if rest.isEmpty then none else (digitsValAux rest 0).map (fun n => (n : Int))
  | rest => (digitsValAux rest 0).map (fun n => (n : Int))

/-- `redirects.py` line 22. -/
def ALL_DOMAINS : String := "__all__"

/-- Python `s.endswith('/')`. -/
def endsWithSlash (s : String) : Bool := s.data.getLast? = some '/'

/-- `redirects.py` `append_slash` (lines 25-29). -/
def append_slash (s : String) : String :=
  if endsWithSlash s then s else s ++ "/"

/-- Locate the first occurrence of `pat` in a character list, returning
the characters before it and the characters after it. -/
def breakOn (pat : List Char) : List Char → Option (List Char × List Char)
  | [] => none
  | c :: cs =>
      if pat.isPrefixOf (c :: cs) then some ([], (c :: cs).drop pat.length)
      else
        match breakOn pat cs with
        | some (pre, post) => some (c :: pre, post)
        | none => none

/-- `redirects.py` `split_url` (lines 31-41).  `urlparse` is Python
standard library (external to this repository); it is modelled for the
URL shapes the redirect tables hold: a reference containing `"://"` has
netloc = the characters between `"://"` and the next `/` and full path =
everything from that `/` on (`urlunparse` of path+params+query+fragment
reassembles exactly that tail), while a scheme-less relative reference
has no netloc and round-trips unchanged.  An empty netloc falls back to
`ALL_DOMAINS`, as in the source. -/
def split_url (url : String) : String × String :=
  match breakOn "://".data url.data with
  | some (_, rest) =>
      let netloc := rest.takeWhile (fun c => c ≠ '/')
      let path := rest.drop netloc.length
      let domain := if netloc.isEmpty then ALL_DOMAINS else String.mk netloc
      (domain, String.mk path)
  | none => (ALL_DOMAINS, url)

/-- `redirects.py` `Redirect` namedtuple (line 44): fields in source
order.  `target` is `Option String` because the CSV reader hands
`add_redirect` `None` for a missing column and `""` for an empty one,
and the namedtuple stores whatever it was given. -/
structure Redirect where
  lineno : Nat
  fname : String
  target : Option String
  status_code : Int
deriving DecidableEq, Repr

/-- `redirects.py` line 45. -/
def VALID_STATUS_CODES : List Int := [301, 302, 303, 307, 410]

/-- `redirects.py` line 46. -/
def REDIRECT_CODES : List Int := [301, 302, 303, 307]

/-- `Redirect.target_set` (lines 52-57), with `settings.APPEND_SLASH`
passed explicitly as `app`.  Python builds a `set`; its iteration order
is unspecified, and this model fixes the order raw-target-first when the
slash variant differs.  `append_slash(None)` would call `.endswith` on
`None`, an `AttributeError`. -/
def Redirect.target_set (r : Redirect) (app : Bool) : Except PyErr (List (Option String)) :=
  match r.target with
  | none => if app then .error .attributeError else .ok [none]
  | some t =>
      if app then
        let t' := append_slash t
        if t' = t then .ok [some t] else .ok [some t, some t']
      else .ok [some t]

/-- `Redirect.full_clean` / the `errors` property (lines 59-70).  When
the status code is invalid the source evaluates
`"Invalid status code {status_code}".format(self.status_code)`: the
format string names the field `status_code` but the argument is passed
positionally, so `str.format` raises `KeyError('status_code')` before
anything is appended to `_errors`.  Hence: valid status code → empty
error list; invalid status code → `KeyError`. -/
def Redirect.errors (r : Redirect) : Except PyErr (List String) :=
  if r.status_code ∈ VALID_STATUS_CODES then .ok [] else .error .keyError

/-- `Redirect.is_valid` (lines 72-73): literally `bool(self.errors)`,
i.e. *true when the error list is non-empty*. -/
def Redirect.is_valid (r : Redirect) : Except PyErr Bool :=
  (Redirect.errors r).map (fun es => !es.isEmpty)

/-- `Redirect.is_redirect` (lines 75-77). -/
def Redirect.is_redirect (r : Redirect) : Bool :=
  decide (r.status_code ∈ REDIRECT_CODES)

/-- `RedirectMap` (line 80): a dict from domain to a dict from path to
`Redirect`, embedded as an association list of association lists. -/
abbrev RedirectMap := List (String × List (String × Redirect))

/-- `RedirectMap.get_redirect` (lines 198-205): the specific domain's
bucket first, then the `ALL_DOMAINS` bucket; `dict.get` never raises. -/
def RedirectMap.get_redirect (m : RedirectMap) (path : String) (domain : Option String) :
    Option Redirect :=
  let d := domain.getD ALL_DOMAINS
  match alook ((alook m d).getD []) path with
  | some r => some r
  | none => alook ((alook m ALL_DOMAINS).getD []) path

/-- `RedirectMap.add_redirect` (lines 106-123): default the status code
(empty/absent status and empty/absent target → 410; empty/absent status
with a target → 302; otherwise `int(status_code)`, whose failure is a
`ValueError`), split the source, and store the new rule, silently
overwriting any existing `(domain, path)` entry. -/
def RedirectMap.add_redirect (m : RedirectMap) (fname : String) (lineno : Nat)
    (source : String) (target : Option String) (status_code : Option String) :
    Except PyErr RedirectMap :=
  let scE : Except PyErr Int :=
    if pyNot status_code then
      .ok (if pyNot target then 410 else 302)
    else
      match int_of_string (status_code.getD "") with
      | some n => .ok n
      | none => .error .valueError
  match scE with
  | .error e => .error e
  | .ok sc =>
      let dp := split_url source
      let bucket := (alook m dp.1).getD []
      .ok (setAssoc m dp.1 (setAssoc bucket dp.2
        { lineno := lineno, fname := fname, target := target, status_code := sc }))

/-- `RedirectMap.load_redirects` (lines 96-104), for the rows of one
CSV file: `csv.DictReader` yields `(source, target, status_code)`
(missing trailing columns are `None`, empty ones are `""`), rows are
enumerated from 0, and each is fed to `add_redirect`.  There is no
`try`/`except`: an exception from `add_redirect` propagates and aborts
the remainder of the load. -/
def RedirectMap.load_rows (m : RedirectMap) (fname : String) :
    List (String × Option String × Option String) → Nat → Except PyErr RedirectMap
  | [], _ => .ok m
  | (source, target, status) :: rest, lineno =>
      match RedirectMap.add_redirect m fname lineno source target status with
      | .error e => .error e
      | .ok m' => RedirectMap.load_rows m' fname rest (lineno + 1)

/-- Rendering of `'{r.target} ({r.fname}:{r.lineno})'`; Python formats
`None` as the string `"None"`. -/
def fmtTarget : Option String → String
  | none => "None"
  | some t => t

/-- The diagnostic built at `redirects.py` lines 170-176. -/
def circularMsg (circular : List Redirect) : String :=
  "Possible circular redirect: " ++
    String.intercalate " -> "
      (circular.map (fun r => fmtTarget r.target ++ " (" ++ r.fname ++ ":" ++ toString r.lineno ++ ")"))

/-- The `for dest in start.target_set` loop of `get_circular`
(lines 135-144), parametric in the recursive call `rec`.
`new_dest.target` is evaluated with no `None` check (line 139) — unlike
the guarded BFS at line 165 — so a destination that resolves to no rule
raises `AttributeError`.  A `None` destination is such a case: Python
3's `urlparse(None)` coerces `None` to the empty string and returns an
empty bytes parse, so `split_url(None)` completes as
`('__all__', b'')`, and the bytes path `b''` equals no `str` table key,
so the lookup yields `None` and line 139 dereferences it. -/
def gcStep (m : RedirectMap)
    (rec : List Redirect → Except PyErr (Option (List Redirect)))
    (trail : List Redirect) : List (Option String) → Except PyErr (Option (List Redirect))
  | [] => .ok none
  | none :: _ => .error .attributeError
  | some d :: rest =>
      let dp := split_url d
      match RedirectMap.get_redirect m dp.2 (some dp.1) with
      | none => .error .attributeError
      | some nd =>
          if nd.target ∈ trail.map (fun r => r.target) then .ok (some trail)
          else
            match rec (trail ++ [nd]) with
            | .error e => .error e
            | .ok (some res) => .ok (some res)
            | .ok none => gcStep m rec trail rest

/-- `get_circular` (lines 129-144).  `visited` is recomputed from the
trail at every call in the source, so only `trail` is threaded.  The
recursion is fuel-indexed (Python's implicit bound: each recursive call
adds a rule whose target is not yet in `visited`, and targets are drawn
from the finite table).  `assert len(trail) > 0` is the
`assertionError` branch. -/
def getCircular (m : RedirectMap) (app : Bool) (fuel : Nat) :
    List Redirect → Except PyErr (Option (List Redirect)) :=
  Nat.rec (motive := fun _ => List Redirect → Except PyErr (Option (List Redirect)))
    (fun _ => .error .fuel)
    (fun _ rec trail =>
      match trail.getLast? with
      | none => .error .assertionError
      | some start =>
          match start.target_set app with
          | .error e => .error e
          | .ok dests => gcStep m rec trail dests)
    fuel

/-- The `while to_visit` BFS of `clean_circular` (lines 153-177).  A
fresh element is looked up only under the `domain in self` guard and
followed only when the resolved rule `is_redirect` (line 165, with its
`None` check); a repeated element triggers `get_circular([dest])`, and
Python would then iterate the result in a set comprehension, so a `None`
result is a `TypeError`.  A fresh `None` queue element is added to
`visited` and then skipped: Python 3's `urlparse(None)` returns an
empty bytes parse, so `split_url(None)` completes as `('__all__',
b'')`, and whether or not `'__all__'` is a loaded domain the bytes path
`b''` equals no `str` key, so `get_redirect` returns `None` and the
line-165 guard moves on. -/
def bfsLoop (m : RedirectMap) (app : Bool) (destRule : Redirect) :
    Nat → List (Option String) → List (Option String) →
    Except PyErr (Option (List Redirect))
  | _, _, [] => .ok none
  | 0, _, _ :: _ => .error .fuel
  | fuel + 1, visited, elem :: queue =>
      if elem ∈ visited then
        match getCircular m app (fuel + 1) [destRule] with
        | .error e => .error e
        | .ok none => .error .typeError
        | .ok (some trail) => .ok (some trail)
      else
        match elem with
        | none => bfsLoop m app destRule fuel (none :: visited) queue
        | some d =>
            let dp := split_url d
            if (alook m dp.1).isSome then
              match RedirectMap.get_redirect m dp.2 (some dp.1) with
              | some nd =>
                  if nd.is_redirect then
                    match nd.target_set app with
                    | .error e => .error e
                    | .ok ts => bfsLoop m app destRule fuel (elem :: visited) (queue ++ ts)
                  else bfsLoop m app destRule fuel (elem :: visited) queue
              | none => bfsLoop m app destRule fuel (elem :: visited) queue
            else bfsLoop m app destRule fuel (elem :: visited) queue

/-- The outer `for domain ... for source, dest ...` scan of
`clean_circular` (lines 146-177), over the flattened `(path, rule)`
entries: a source already recorded in `part_of_circular` is skipped;
otherwise the BFS runs from the rule's `target_set`, and a detected
cycle appends one diagnostic and adds every reconstructed rule's target
to `part_of_circular` (the `break` leaves the while-loop, the scan then
continues with the next entry). -/
def scanLoop (m : RedirectMap) (app : Bool) (fuel : Nat) :
    List (String × Redirect) → List (Option String) → List String →
    Except PyErr (List String)
  | [], _, errs => .ok errs
  | (source, dest) :: rest, partOf, errs =>
      if some source ∈ partOf then scanLoop m app fuel rest partOf errs
      else
        match dest.target_set app with
        | .error e => .error e
        | .ok ts =>
            match bfsLoop m app dest fuel [] ts with
            | .error e => .error e
            | .ok none => scanLoop m app fuel rest partOf errs
            | .ok (some circular) =>
                scanLoop m app fuel rest
                  (partOf ++ circular.map (fun r => r.target))
                  (errs ++ [circularMsg circular])

/-- The flattened `(source, dest)` iteration order of the nested dict
loops at lines 148-149. -/
def entriesOf (m : RedirectMap) : List (String × Redirect) :=
  m.flatMap (fun b => b.2)

/-- `RedirectMap.clean_circular` (lines 125-177).  The fuel
`2 * |entries| + 3` strictly dominates the dynamic bounds of the BFS
(at most one iteration per distinct queue element, of which there are at
most two per rule, stopping at the first revisit) and of `get_circular`
(depth bounded by the number of distinct targets). -/
def RedirectMap.clean_circular (m : RedirectMap) (app : Bool) : Except PyErr (List String) :=
  scanLoop m app (2 * (entriesOf m).length + 3) (entriesOf m) [] []

/-- `RedirectMap.clean_redirects` (lines 179-180) is literally `pass`:
it contributes no diagnostics. -/
def RedirectMap.clean_redirects (_ : RedirectMap) : List String := []

/-- `RedirectMap.full_clean` (lines 182-187): initialise `_errors`, run
the no-op `clean_redirects`, then `clean_circular`. -/
def RedirectMap.full_clean (m : RedirectMap) (app : Bool) : Except PyErr (List String) :=
  (RedirectMap.clean_circular m app).map (fun es => RedirectMap.clean_redirects m ++ es)

/-- The `errors` property (lines 189-193). -/
def RedirectMap.errors (m : RedirectMap) (app : Bool) : Except PyErr (List String) :=
  RedirectMap.full_clean m app

/-- `RedirectMap.is_valid` (lines 195-196): `not bool(self.errors)`,
i.e. *true when the error list is empty* — the opposite polarity of
`Redirect.is_valid`. -/
def RedirectMap.is_valid (m : RedirectMap) (app : Bool) : Except PyErr Bool :=
  (RedirectMap.errors m app).map (fun es => es.isEmpty)

/-! The second implementation, in `django_detour/middleware.py`. -/

namespace Mw

/-- `middleware.py` `Redirect` (lines 62-78): the attributes stored by
`__init__` that later code reads.  (`parsed_source`/`parsed_target` are
`urlparse` results used only by `preprocess_redirects`' chain analysis,
which no claim touches, and are not stored here.) -/
structure Redirect where
  source : String
  target : String
  status_code : Int
  domain : Option String
  filename : String
  line_number : Nat
deriving DecidableEq, Repr

/-- `middleware.py` `Redirect.__init__` (lines 66-80): the source is
stripped, the target is `(target or '').strip()`, and the status code is
`int(status_code or 301)` when the raw `target` is truthy, else 410.  A
non-integer status string raises `ValueError`. -/
def mkRedirect (source : String) (target : Option String) (status_code : Option String)
    (domain : Option String) (filename : String) (line_number : Nat) :
    Except PyErr Redirect :=
  let scE : Except PyErr Int :=
    if pyNot target then .ok 410
    else if pyNot status_code then .ok 301
    else
      match int_of_string (status_code.getD "") with
      | some n => .ok n
      | none => .error .valueError
  match scE with
  | .error e => .error e
  | .ok sc =>
      .ok { source := source.trim, target := (target.getD "").trim, status_code := sc,
            domain := domain, filename := filename, line_number := line_number }

/-- `middleware.py` `Redirect.validate` (lines 96-104): by Python
precedence the guard is `status_code < 300 or (status_code > 399 and
status_code != 410)`; a failing rule gets one message under the
`status_code` field. -/
def Redirect.validateErrors (r : Redirect) : List (String × String) :=
  if r.status_code < 300 || (r.status_code > 399 && !(r.status_code == 410)) then
    [("status_code",
      "ERROR: " ++ r.filename ++ ":" ++ toString r.line_number ++
        " - Non 3xx/410 status code(" ++ toString r.status_code ++ ")")]
  else []

/-- `middleware.py` `Redirect.is_valid` (lines 88-89): `bool(self.errors)`
— true exactly when the error mapping is non-empty. -/
def Redirect.is_valid (r : Redirect) : Bool :=
  !(Redirect.validateErrors r).isEmpty

/-- The response built at `middleware.py` lines 44-46: a status code and
a `Location` header that is the target, or `None` when the target is the
empty string (`target or None`). -/
structure Response where
  status : Int
  location : Option String
deriving DecidableEq, Repr

/-- `middleware.py` `get_redirect` (lines 29-47): exact `full_uri` key
first, then `iri_to_uri(path)`, then the raw `path`; no key → `None`.
`iri_to_uri` is Django library code, passed in as a parameter. -/
def get_redirect (redirects : List (String × Redirect)) (iriToUri : String → String)
    (path : String) (full_uri : String) : Option Response :=
  let sel : Option Redirect :=
    match alook redirects full_uri with
    | some r => some r
    | none =>
        match alook redirects (iriToUri path) with
        | some r => some r
        | none => alook redirects path
  sel.map (fun r =>
    { status := r.status_code,
      location := if r.target = "" then none else some r.target })

end Mw

/-! Concrete tables used by the counterexample and code-bug theorems. -/

/-- A diamond of plain-path rules whose chains end at the unloaded
target `/e`: `/a → /b`, `/b → /d`, `/b/ → /d`, `/d → /e`.  With
`APPEND_SLASH` both slash variants of `/b` reach `/d`, so the BFS
revisits `/d`, and the reconstruction then resolves `/e`, which matches
no rule. -/
def diamondTable : RedirectMap :=
  [(ALL_DOMAINS,
    [("/a", { lineno := 0, fname := "c.csv", target := some "/b", status_code := 301 }),
     ("/b", { lineno := 1, fname := "c.csv", target := some "/d", status_code := 301 }),
     ("/b/", { lineno := 2, fname := "c.csv", target := some "/d", status_code := 301 }),
     ("/d", { lineno := 3, fname := "c.csv", target := some "/e", status_code := 301 })])]

/-- A rule with the out-of-range status code 500. -/
def rule500 : Redirect :=
  { lineno := 0, fname := "s.csv", target := some "/y", status_code := 500 }

/-- A table holding only `rule500`. -/
def table500 : RedirectMap := [(ALL_DOMAINS, [("/x", rule500)])]

/-- The table produced by adding `/a → /b` and then `/a → /c` (both 301)
to an empty map: the second rule silently replaced the first. -/
def dupTable : RedirectMap :=
  [(ALL_DOMAINS, [("/a", { lineno := 1, fname := "f", target := some "/c", status_code := 301 })])]

/-- The `i`-th rule of an `N`-cycle over the paths `p 0, …, p (N-1)`:
its target is the next path around the cycle. -/
def cycleRule (p : Nat → String) (li : Nat → Nat) (fi : Nat → String) (st : Nat → Int)
    (N i : Nat) : Redirect :=
  { lineno := li i, fname := fi i, target := some (p ((i + 1) % N)), status_code := st i }

/-- The canonical `(path, rule)` listing of the `N`-cycle. -/
def cycleTable (p : Nat → String) (li : Nat → Nat) (fi : Nat → String) (st : Nat → Int)
    (N : Nat) : List (String × Redirect) :=
  (List.range N).map (fun i => (p i, cycleRule p li fi st N i))

/-- The `i`-th rule of a `K+1`-rule chain `p 0 → p 1 → … → p K`: the
first `K` rules are redirects to the next path, and the last rule is a
410 (Gone) whose target points back at `p 0`. -/
def chainRule (p : Nat → String) (li : Nat → Nat) (fi : Nat → String) (st : Nat → Int)
    (K i : Nat) : Redirect :=
  if i < K then { lineno := li i, fname := fi i, target := some (p (i + 1)), status_code := st i }
  else { lineno := li i, fname := fi i, target := some (p 0), status_code := 410 }

/-- The canonical `(path, rule)` listing of the chain. -/
def chainTable (p : Nat → String) (li : Nat → Nat) (fi : Nat → String) (st : Nat → Int)
    (K : Nat) : List (String × Redirect) :=
  (List.range (K + 1)).map (fun i => (p i, chainRule p li fi st K i))

/-- The trail `get_circular` has built after `t` recursion steps when
started from the cycle rule at `p j`: the rules at
`p (j % N), p ((j+1) % N), …, p ((j+t) % N)`. -/
def cycleTrail (p : Nat → String) (li : Nat → Nat) (fi : Nat → String) (st : Nat → Int)
    (N j t : Nat) : List Redirect :=
  (List.range (t + 1)).map (fun s => cycleRule p li fi st N ((j + s) % N))

/-- The BFS `visited` list after `k` iterations of the scan started at
the cycle rule at `p j` (most recently visited element first). -/
def cycleVisited (p : Nat → String) (N j k : Nat) : List (Option String) :=
  ((List.range k).map (fun t => some (p ((j + 1 + t) % N)))).reverse

/-! Helper lemmas about the dict model. -/

theorem alook_setAssoc_self {α : Type} (l : List (String × α)) (k : String) (v : α) :
    alook (setAssoc l k v) k = some v := by
  induction l with
  | nil => simp [setAssoc, alook]
  | cons hd tl ih =>
      obtain ⟨k', v'⟩ := hd
      by_cases h : k' = k
      · simp [setAssoc, alook, h]
      · simp [setAssoc, alook, h, ih]

theorem alook_eq_some_of_mem_nodup {α : Type} {l : List (String × α)} {k : String} {v : α}
    (hnd : (l.map Prod.fst).Nodup) (hmem : (k, v) ∈ l) :
    alook l k = some v := by
  induction l with
  | nil => cases hmem
  | cons hd tl ih =>
      obtain ⟨k', v'⟩ := hd
      simp only [List.map_cons, List.nodup_cons] at hnd
      rcases List.mem_cons.mp hmem with h | h
      · obtain ⟨rfl, rfl⟩ := Prod.mk.injEq .. ▸ h
        simp [alook]
      · have hk : k' ≠ k := by
          rintro rfl
          exact hnd.1 (List.mem_map.mpr ⟨(k', v), h, rfl⟩)
        simp [alook, hk, ih hnd.2 h]

theorem get_redirect_after_add (m : RedirectMap) (d p : String) (rule : Redirect) :
    RedirectMap.get_redirect (setAssoc m d (setAssoc ((alook m d).getD []) p rule)) p (some d) =
      some rule := by
  simp [RedirectMap.get_redirect, alook_setAssoc_self]

theorem errors_eq_clean_circular (m : RedirectMap) (app : Bool) :
    RedirectMap.errors m app = RedirectMap.clean_circular m app := by
  unfold RedirectMap.errors RedirectMap.full_clean RedirectMap.clean_redirects
  cases RedirectMap.clean_circular m app <;> rfl

theorem scanLoop_errs_shape (m : RedirectMap) (app : Bool) (F : Nat) :
    ∀ (entries : List (String × Redirect)) (partOf : List (Option String))
      (errs es : List String),
      scanLoop m app F entries partOf errs = .ok es →
      (∀ e ∈ errs, ∃ tail, e = "Possible circular redirect: " ++ tail) →
      ∀ e ∈ es, ∃ tail, e = "Possible circular redirect: " ++ tail := by
  intro entries
  induction entries with
  | nil =>
      intro partOf errs es h hshape
      simp only [scanLoop] at h
      cases h
      exact hshape
  | cons hd rest ih =>
      intro partOf errs es h hshape
      obtain ⟨source, dest⟩ := hd
      simp only [scanLoop] at h
      split at h
      · exact ih partOf errs es h hshape
      · split at h
        · cases h
        · split at h
          · cases h
          · exact ih partOf errs es h hshape
          · rename_i circular _
            refine ih _ _ es h ?_
            intro e he
            rcases List.mem_append.mp he with h' | h'
            · exact hshape e h'
            · rcases List.mem_singleton.mp h' with rfl
              exact ⟨_, rfl⟩

/-! Claim theorems. -/

/-- C3 (code bug): the claim says that running validation
(`full_clean`/`clean_circular`, reached via `errors` or `is_valid()`)
never raises, for every table — including tables whose rules have
targets that resolve to no loaded rule.  The code disagrees: with
`APPEND_SLASH`, the diamond table's BFS revisits `/d`, and
`get_circular` then resolves the unloaded target `/e` and dereferences
the `None` lookup result at line 139 (`new_dest.target`), an
`AttributeError` — the `None` guard present in the BFS at line 165 is
missing there, and every branch of the reconstruction hits such a
dereference, so the crash occurs for every Python set order. -/
theorem c3_validation_raises :
    RedirectMap.errors diamondTable true = .error .attributeError := by
  exact rfl

/-- C7 (code bug): the claim says a rule with a status code outside
{301,302,303,307,410} gets an error recorded against it and makes the
table-level `is_valid()` false.  In the code, `Redirect.full_clean`
evaluates `"Invalid status code {status_code}".format(self.status_code)`
— a named placeholder with a positional argument — so accessing the
rule's `errors` raises `KeyError` instead of recording anything; and
`RedirectMap.clean_redirects` is `pass`, so rule-level problems never
reach the table's error list: on a table whose only rule has status 500
the table-level `is_valid()` returns `True`. -/
theorem c7_rule_error_not_reflected :
    Redirect.errors rule500 = .error .keyError ∧
    Redirect.is_valid rule500 = .error .keyError ∧
    RedirectMap.is_valid table500 false = .ok true := by
  exact ⟨rfl, rfl, rfl⟩

/-- C5: `get_redirect(path, domain)` consults the specific domain's
bucket (the `ALL_DOMAINS` bucket when `domain` is `None`), falls back to
the `ALL_DOMAINS` bucket when that misses, and returns `None` when both
miss; the `dict.get`-based lookups are total, so no exception is
possible. -/
theorem c5_get_redirect_fallback (m : RedirectMap) (path : String) (domain : Option String) :
    (∀ r, alook ((alook m (domain.getD ALL_DOMAINS)).getD []) path = some r →
      RedirectMap.get_redirect m path domain = some r) ∧
    (alook ((alook m (domain.getD ALL_DOMAINS)).getD []) path = none →
      (∀ r, alook ((alook m ALL_DOMAINS).getD []) path = some r →
        RedirectMap.get_redirect m path domain = some r) ∧
      (alook ((alook m ALL_DOMAINS).getD []) path = none →
        RedirectMap.get_redirect m path domain = none)) := by
  refine ⟨fun r h => ?_, fun h => ⟨fun r h' => ?_, fun h' => ?_⟩⟩
  · simp [RedirectMap.get_redirect, h]
  · simp [RedirectMap.get_redirect, h, h']
  · simp [RedirectMap.get_redirect, h, h']

/-- C5 witness: a domain with no specific rule for `/y` but a wildcard
rule for it gets the wildcard rule. -/
theorem c5_witness :
    RedirectMap.get_redirect
      [("example.com", [("/x", { lineno := 0, fname := "f", target := some "/ax", status_code := 301 })]),
       ("__all__", [("/x", { lineno := 1, fname := "f", target := some "/wx", status_code := 301 }),
                    ("/y", { lineno := 2, fname := "f", target := some "/wy", status_code := 301 })])]
      "/y" (some "example.com") =
      some { lineno := 2, fname := "f", target := some "/wy", status_code := 301 } := by
  exact ((c5_get_redirect_fallback _ "/y" (some "example.com")).2 (by rfl)).1 _ (by rfl)

/-- C6: with an empty (or absent) status field, `add_redirect` stores
status 410 when the target is also empty/absent and 302 otherwise
(`http_client.GONE` / `http_client.FOUND`); a non-empty status field is
parsed with `int` and stored as that integer. -/
theorem c6_status_defaults (m : RedirectMap) (fname : String) (lineno : Nat)
    (source : String) (target : Option String) (status : Option String) :
    (pyNot status = true → pyNot target = true →
      ∃ m', RedirectMap.add_redirect m fname lineno source target status = .ok m' ∧
        RedirectMap.get_redirect m' (split_url source).2 (some (split_url source).1) =
          some { lineno := lineno, fname := fname, target := target, status_code := 410 }) ∧
    (pyNot status = true → pyNot target = false →
      ∃ m', RedirectMap.add_redirect m fname lineno source target status = .ok m' ∧
        RedirectMap.get_redirect m' (split_url source).2 (some (split_url source).1) =
          some { lineno := lineno, fname := fname, target := target, status_code := 302 }) ∧
    (∀ n, pyNot status = false → int_of_string (status.getD "") = some n →
      ∃ m', RedirectMap.add_redirect m fname lineno source target status = .ok m' ∧
        RedirectMap.get_redirect m' (split_url source).2 (some (split_url source).1) =
          some { lineno := lineno, fname := fname, target := target, status_code := n }) := by
  refine ⟨fun hs ht => ?_, fun hs ht => ?_, fun n hs hp => ?_⟩
  · have h : RedirectMap.add_redirect m fname lineno source target status =
        .ok (setAssoc m (split_url source).1
          (setAssoc ((alook m (split_url source).1).getD []) (split_url source).2
            { lineno := lineno, fname := fname, target := target, status_code := 410 })) := by
      simp [RedirectMap.add_redirect, hs, ht]
    exact ⟨_, h, get_redirect_after_add ..⟩
  · have h : RedirectMap.add_redirect m fname lineno source target status =
        .ok (setAssoc m (split_url source).1
          (setAssoc ((alook m (split_url source).1).getD []) (split_url source).2
            { lineno := lineno, fname := fname, target := target, status_code := 302 })) := by
      simp [RedirectMap.add_redirect, hs, ht]
    exact ⟨_, h, get_redirect_after_add ..⟩
  · have h : RedirectMap.add_redirect m fname lineno source target status =
        .ok (setAssoc m (split_url source).1
          (setAssoc ((alook m (split_url source).1).getD []) (split_url source).2
            { lineno := lineno, fname := fname, target := target, status_code := n })) := by
      simp [RedirectMap.add_redirect, hs, hp]
    exact ⟨_, h, get_redirect_after_add ..⟩

/-- C6 witness: `/gone,,` → 410; `/t,/u` (absent status) → 302;
`/s,/u,307` → 307. -/
theorem c6_witness :
    (∃ m', RedirectMap.add_redirect [] "f" 0 "/gone" (some "") (some "") = .ok m' ∧
      RedirectMap.get_redirect m' "/gone" (some ALL_DOMAINS) =
        some { lineno := 0, fname := "f", target := some "", status_code := 410 }) ∧
    (∃ m', RedirectMap.add_redirect [] "f" 1 "/t" (some "/u") none = .ok m' ∧
      RedirectMap.get_redirect m' "/t" (some ALL_DOMAINS) =
        some { lineno := 1, fname := "f", target := some "/u", status_code := 302 }) ∧
    (∃ m', RedirectMap.add_redirect [] "f" 2 "/s" (some "/u") (some "307") = .ok m' ∧
      RedirectMap.get_redirect m' "/s" (some ALL_DOMAINS) =
        some { lineno := 2, fname := "f", target := some "/u", status_code := 307 }) := by
  refine ⟨?_, ?_, ?_⟩
  · exact (c6_status_defaults [] "f" 0 "/gone" (some "") (some "")).1 (by decide) (by decide)
  · exact (c6_status_defaults [] "f" 1 "/t" (some "/u") none).2.1 (by decide) (by decide)
  · exact (c6_status_defaults [] "f" 2 "/s" (some "/u") (some "307")).2.2 307 (by decide) (by decide)

/-- C4 counterexample: adding `/a → /b` and then `/a → /c` (same
`(domain, path)` pair) leaves the later rule in the table, but running
the table's full validation afterwards yields an *empty* diagnostic
list — not the "exactly one duplicate-declaration warning" the claim
asserts.  `RedirectMap.add_redirect` has no existence check at all. -/
theorem c4_counterexample :
    (RedirectMap.add_redirect [] "f" 0 "/a" (some "/b") (some "301")).bind
      (fun m1 => RedirectMap.add_redirect m1 "f" 1 "/a" (some "/c") (some "301")) =
      .ok dupTable ∧
    RedirectMap.get_redirect dupTable "/a" none =
      some { lineno := 1, fname := "f", target := some "/c", status_code := 301 } ∧
    RedirectMap.errors dupTable false = .ok [] := by
  exact ⟨rfl, rfl, rfl⟩

/-- C4 (amended): two `add_redirect` calls whose sources split to the
same `(domain, path)` pair leave the later-added rule in the table, and
no duplicate-declaration warning is recorded — the overwrite is silent,
and every diagnostic the table can ever accumulate is a
`Possible circular redirect` message.  (The duplicate warning the claim
describes exists only in `middleware.py`'s `preprocess_redirects`, and
is keyed by the exact source string, not by the split pair.) -/
theorem add_redirect_ok_shape {m m' : RedirectMap} {f : String} {l : Nat} {s : String}
    {t st : Option String} (h : RedirectMap.add_redirect m f l s t st = .ok m') :
    ∃ sc, m' = setAssoc m (split_url s).1
      (setAssoc ((alook m (split_url s).1).getD []) (split_url s).2
        { lineno := l, fname := f, target := t, status_code := sc }) := by
  unfold RedirectMap.add_redirect at h
  by_cases hst : pyNot st = true
  · simp only [hst, if_true] at h
    cases h
    exact ⟨_, rfl⟩
  · simp only [hst, if_false, Bool.false_eq_true] at h
    cases hio : int_of_string (st.getD "") with
    | none => rw [hio] at h; cases h
    | some n =>
        rw [hio] at h
        cases h
        exact ⟨n, rfl⟩

theorem c4_overwrite_is_silent (m m1 m2 : RedirectMap) (f1 f2 : String) (l1 l2 : Nat)
    (s1 s2 : String) (t1 t2 st1 st2 : Option String)
    (_hsplit : split_url s1 = split_url s2)
    (_h1 : RedirectMap.add_redirect m f1 l1 s1 t1 st1 = .ok m1)
    (h2 : RedirectMap.add_redirect m1 f2 l2 s2 t2 st2 = .ok m2) :
    (∃ sc, RedirectMap.get_redirect m2 (split_url s2).2 (some (split_url s2).1) =
      some { lineno := l2, fname := f2, target := t2, status_code := sc }) ∧
    (∀ app es, RedirectMap.errors m2 app = .ok es →
      ∀ e ∈ es, ∃ tail, e = "Possible circular redirect: " ++ tail) := by
  constructor
  · obtain ⟨sc, rfl⟩ := add_redirect_ok_shape h2
    exact ⟨sc, get_redirect_after_add ..⟩
  · intro app es h
    rw [errors_eq_clean_circular] at h
    exact scanLoop_errs_shape _ app _ _ _ _ es h (by simp)

/-- C4 witness: the amended statement at the concrete duplicate pair of
`c4_counterexample`. -/
theorem c4_witness :
    (∃ sc, RedirectMap.get_redirect dupTable (split_url "/a").2 (some (split_url "/a").1) =
      some { lineno := 1, fname := "f", target := some "/c", status_code := sc }) ∧
    (∀ app es, RedirectMap.errors dupTable app = .ok es →
      ∀ e ∈ es, ∃ tail, e = "Possible circular redirect: " ++ tail) := by
  exact c4_overwrite_is_silent []
    [(ALL_DOMAINS, [("/a", { lineno := 0, fname := "f", target := some "/b", status_code := 301 })])]
    dupTable "f" "f" 0 1 "/a" "/a" (some "/b") (some "/c") (some "301") (some "301")
    rfl (by rfl) (by rfl)

/-- C8 counterexample: a directory row set whose second row has the
unparseable status `xyz` makes the load raise `ValueError` (aborting it;
the third row is never reached), instead of recording a tagged load
error and continuing as the claim states.  `load_redirects` has no
`try`/`except`, and no per-row load-error list exists anywhere in the
module. -/
theorem c8_counterexample :
    RedirectMap.load_rows [] "r.csv"
      [("/a", some "/b", some "301"), ("/bad", some "/c", some "xyz"),
       ("/d", some "/e", some "301")] 0 = .error .valueError := by
  exact rfl

/-- C8 (amended): a row with a non-empty, non-integer status code makes
`add_redirect` raise `ValueError`, and the loader loop propagates the
exception, aborting the load with the remaining rows unprocessed; no
load error is recorded. -/
theorem c8_bad_status_aborts_load (m : RedirectMap) (f src : String) (l : Nat)
    (tgt : Option String) (s : String)
    (hne : pyNot (some s) = false) (hbad : int_of_string s = none) :
    RedirectMap.add_redirect m f l src tgt (some s) = .error .valueError ∧
    ∀ rows, RedirectMap.load_rows m f ((src, tgt, some s) :: rows) l = .error .valueError := by
  have h : RedirectMap.add_redirect m f l src tgt (some s) = .error .valueError := by
    simp [RedirectMap.add_redirect, hne, hbad]
  exact ⟨h, fun rows => by simp [RedirectMap.load_rows, h]⟩

/-- C8 witness: the amended statement at status string `xyz`. -/
theorem c8_witness :
    pyNot (some "xyz") = false ∧ int_of_string "xyz" = none ∧
    RedirectMap.add_redirect [] "r.csv" 1 "/bad" (some "/c") (some "xyz") =
      .error .valueError := by
  exact ⟨by decide, by decide,
    (c8_bad_status_aborts_load [] "r.csv" "/bad" 1 (some "/c") "xyz" (by decide) (by decide)).1⟩

/-- C9: the middleware resolver tries the exact `full_uri` key first,
then `iri_to_uri(path)`, then the raw `path`; a hit yields the redirect
directive (status code plus `Location` = target, or `None` for an empty
target) and a miss on all three yields `None`.  Every branch is a plain
dict lookup, so nothing can raise. -/
theorem c9_resolver_priority (redirects : List (String × Mw.Redirect))
    (iriToUri : String → String) (path full_uri : String) :
    (∀ r, alook redirects full_uri = some r →
      Mw.get_redirect redirects iriToUri path full_uri =
        some { status := r.status_code,
               location := if r.target = "" then none else some r.target }) ∧
    (alook redirects full_uri = none →
      (∀ r, alook redirects (iriToUri path) = some r →
        Mw.get_redirect redirects iriToUri path full_uri =
          some { status := r.status_code,
                 location := if r.target = "" then none else some r.target }) ∧
      (alook redirects (iriToUri path) = none →
        (∀ r, alook redirects path = some r →
          Mw.get_redirect redirects iriToUri path full_uri =
            some { status := r.status_code,
                   location := if r.target = "" then none else some r.target }) ∧
        (alook redirects path = none →
          Mw.get_redirect redirects iriToUri path full_uri = none))) := by
  refine ⟨fun r h => ?_, fun h => ⟨fun r h' => ?_, fun h' => ⟨fun r h'' => ?_, fun h'' => ?_⟩⟩⟩
  · simp [Mw.get_redirect, h]
  · simp [Mw.get_redirect, h, h']
  · simp [Mw.get_redirect, h, h', h'']
  · simp [Mw.get_redirect, h, h', h'']

/-- C9 witness: with both an absolute-URL-keyed rule and a path-keyed
rule present, the full-URI key wins; the directive carries the rule's
target and status code. -/
theorem c9_witness :
    Mw.get_redirect
      [("http://x.com/a",
        { source := "http://x.com/a", target := "/full", status_code := 301, domain := none,
          filename := "f", line_number := 0 }),
       ("/a",
        { source := "/a", target := "/bypath", status_code := 302, domain := none,
          filename := "f", line_number := 1 })]
      (fun s => s) "/a" "http://x.com/a" = some { status := 301, location := some "/full" } := by
  have h := (c9_resolver_priority
      [("http://x.com/a",
        { source := "http://x.com/a", target := "/full", status_code := 301, domain := none,
          filename := "f", line_number := 0 }),
       ("/a",
        { source := "/a", target := "/bypath", status_code := 302, domain := none,
          filename := "f", line_number := 1 })]
      (fun s => s) "/a" "http://x.com/a").1
      { source := "http://x.com/a", target := "/full", status_code := 301, domain := none,
        filename := "f", line_number := 0 } (by simp [alook])
  simpa using h

theorem getCircular_succ (m : RedirectMap) (app : Bool) (f : Nat) (trail : List Redirect) :
    getCircular m app (f + 1) trail =
      match trail.getLast? with
      | none => .error .assertionError
      | some start =>
          match start.target_set app with
          | .error e => .error e
          | .ok dests => gcStep m (getCircular m app f) trail dests := rfl

theorem gcStep_found (m : RedirectMap)
    (rec : List Redirect → Except PyErr (Option (List Redirect)))
    (trail : List Redirect) (d : String) (rest : List (Option String)) (r : Redirect)
    (hres : RedirectMap.get_redirect m (split_url d).2 (some (split_url d).1) = some r)
    (hmem : r.target ∈ trail.map (fun x => x.target)) :
    gcStep m rec trail (some d :: rest) = .ok (some trail) := by
  simp only [gcStep, hres, if_pos hmem]

theorem gcStep_resolve (m : RedirectMap)
    (rec : List Redirect → Except PyErr (Option (List Redirect)))
    (trail : List Redirect) (d : String) (rest : List (Option String)) (r : Redirect)
    (hres : RedirectMap.get_redirect m (split_url d).2 (some (split_url d).1) = some r)
    (hmem : r.target ∉ trail.map (fun x => x.target)) :
    gcStep m rec trail (some d :: rest) =
      match rec (trail ++ [r]) with
      | .error e => .error e
      | .ok (some res) => .ok (some res)
      | .ok none => gcStep m rec trail rest := by
  simp only [gcStep, hres, if_neg hmem]

theorem bfsLoop_step_revisit (m : RedirectMap) (app : Bool) (destR : Redirect) (fuel : Nat)
    (visited queue : List (Option String)) (elem : Option String)
    (trail : List Redirect)
    (hv : elem ∈ visited)
    (hgc : getCircular m app (fuel + 1) [destR] = .ok (some trail)) :
    bfsLoop m app destR (fuel + 1) visited (elem :: queue) = .ok (some trail) := by
  simp only [bfsLoop, if_pos hv, hgc]

theorem bfsLoop_step_new (m : RedirectMap) (app : Bool) (destR : Redirect) (fuel : Nat)
    (visited queue ts : List (Option String)) (d : String) (r : Redirect)
    (hnv : some d ∉ visited)
    (hdom : (alook m (split_url d).1).isSome = true)
    (hres : RedirectMap.get_redirect m (split_url d).2 (some (split_url d).1) = some r)
    (hred : r.is_redirect = true)
    (hts : r.target_set app = .ok ts) :
    bfsLoop m app destR (fuel + 1) visited (some d :: queue) =
      bfsLoop m app destR fuel (some d :: visited) (queue ++ ts) := by
  simp only [bfsLoop, if_neg hnv, hdom, if_pos, hres, hred, if_true, hts]

theorem bfsLoop_step_gone (m : RedirectMap) (app : Bool) (destR : Redirect) (fuel : Nat)
    (visited queue : List (Option String)) (d : String) (r : Redirect)
    (hnv : some d ∉ visited)
    (hdom : (alook m (split_url d).1).isSome = true)
    (hres : RedirectMap.get_redirect m (split_url d).2 (some (split_url d).1) = some r)
    (hred : r.is_redirect = false) :
    bfsLoop m app destR (fuel + 1) visited (some d :: queue) =
      bfsLoop m app destR fuel (some d :: visited) queue := by
  simp only [bfsLoop, if_neg hnv, hdom, if_pos, hres, hred, Bool.false_eq_true, if_false]

theorem scanLoop_all_skipped (m : RedirectMap) (app : Bool) (F : Nat) :
    ∀ (entries' : List (String × Redirect)) (partOf : List (Option String))
      (errs : List String),
      (∀ e ∈ entries', some e.1 ∈ partOf) →
      scanLoop m app F entries' partOf errs = .ok errs := by
  intro entries'
  induction entries' with
  | nil => intro partOf errs _; rfl
  | cons hd rest ih =>
      intro partOf errs hall
      obtain ⟨source, dest⟩ := hd
      have hs : some source ∈ partOf := hall (source, dest) (List.mem_cons_self ..)
      simp only [scanLoop, if_pos hs]
      exact ih partOf errs (fun e he => hall e (List.mem_cons_of_mem _ he))

theorem scanLoop_all_clean (m : RedirectMap) (app : Bool) (F : Nat) :
    ∀ (entries' : List (String × Redirect)) (partOf : List (Option String))
      (errs : List String),
      (∀ e ∈ entries', ∃ ts, e.2.target_set app = .ok ts ∧
        bfsLoop m app e.2 F [] ts = .ok none) →
      scanLoop m app F entries' partOf errs = .ok errs := by
  intro entries'
  induction entries' with
  | nil => intro partOf errs _; rfl
  | cons hd rest ih =>
      intro partOf errs hall
      obtain ⟨source, dest⟩ := hd
      obtain ⟨ts, hts, hbfs⟩ := hall (source, dest) (List.mem_cons_self ..)
      by_cases hs : some source ∈ partOf
      · simp only [scanLoop, if_pos hs]
        exact ih partOf errs (fun e he => hall e (List.mem_cons_of_mem _ he))
      · simp only [scanLoop, if_neg hs, hts, hbfs]
        exact ih partOf errs (fun e he => hall e (List.mem_cons_of_mem _ he))

/-! Facts about single-wildcard-bucket tables. -/

theorem alook_single_bucket (entries : List (String × Redirect)) :
    alook [(ALL_DOMAINS, entries)] ALL_DOMAINS = some entries := by
  simp [alook]

theorem get_redirect_single_bucket (entries : List (String × Redirect)) (path : String) :
    RedirectMap.get_redirect [(ALL_DOMAINS, entries)] path (some ALL_DOMAINS) =
      alook entries path := by
  simp only [RedirectMap.get_redirect, Option.getD, alook_single_bucket]
  cases alook entries path <;> rfl

theorem entriesOf_single_bucket (entries : List (String × Redirect)) :
    entriesOf [(ALL_DOMAINS, entries)] = entries := by
  simp [entriesOf]

/-! Modular-arithmetic helpers for the cycle walk. -/

theorem mod_shift_inj {N : Nat} (a : Nat) {s t : Nat} (hs : s < N) (ht : t < N)
    (h : (a + s) % N = (a + t) % N) : s = t := by
  have h' : s ≡ t [MOD N] := (Nat.ModEq.refl a).add_left_cancel h
  calc s = s % N := (Nat.mod_eq_of_lt hs).symm
    _ = t % N := h'
    _ = t := Nat.mod_eq_of_lt ht

theorem mod_shift_surj {N : Nat} (hN : 0 < N) (a : Nat) {u : Nat} (hu : u < N) :
    ∃ s, s < N ∧ (a + s) % N = u := by
  refine ⟨(u + N - a % N) % N, Nat.mod_lt _ hN, ?_⟩
  have ha : a % N ≤ u + N := le_trans (le_of_lt (Nat.mod_lt _ hN)) (Nat.le_add_left N u)
  have h1 : a + (u + N - a % N) % N ≡ a % N + (u + N - a % N) [MOD N] :=
    Nat.ModEq.add (Nat.mod_modEq a N).symm (Nat.mod_modEq _ N)
  have h2 : a % N + (u + N - a % N) = u + N := Nat.add_sub_cancel' ha
  calc (a + (u + N - a % N) % N) % N
      = (a % N + (u + N - a % N)) % N := h1
    _ = (u + N) % N := by rw [h2]
    _ = u % N := Nat.add_mod_right u N
    _ = u := Nat.mod_eq_of_lt hu

/-! Facts about the parametric cycle table. -/

theorem cycleTrail_getLast (p : Nat → String) (li : Nat → Nat) (fi : Nat → String)
    (st : Nat → Int) (N j t : Nat) :
    (cycleTrail p li fi st N j t).getLast? = some (cycleRule p li fi st N ((j + t) % N)) := by
  simp only [cycleTrail, List.range_succ, List.map_append, List.map_cons, List.map_nil]
  exact List.getLast?_concat _

theorem cycleTrail_succ (p : Nat → String) (li : Nat → Nat) (fi : Nat → String)
    (st : Nat → Int) (N j t : Nat) :
    cycleTrail p li fi st N j (t + 1) =
      cycleTrail p li fi st N j t ++ [cycleRule p li fi st N ((j + (t + 1)) % N)] := by
  simp [cycleTrail, List.range_succ]

theorem cycleTrail_zero (p : Nat → String) (li : Nat → Nat) (fi : Nat → String)
    (st : Nat → Int) (N j : Nat) (hj : j < N) :
    cycleTrail p li fi st N j 0 = [cycleRule p li fi st N j] := by
  have h1 : List.range 1 = [0] := rfl
  simp [cycleTrail, h1, Nat.mod_eq_of_lt hj]

theorem cycleTrail_targets (p : Nat → String) (li : Nat → Nat) (fi : Nat → String)
    (st : Nat → Int) (N j t : Nat) :
    (cycleTrail p li fi st N j t).map (fun r => r.target) =
      (List.range (t + 1)).map (fun s => some (p ((j + 1 + s) % N))) := by
  simp only [cycleTrail, List.map_map]
  refine List.map_congr_left (fun s _ => ?_)
  simp only [Function.comp_apply, cycleRule]
  rw [Nat.mod_add_mod]
  have h : j + s + 1 = j + 1 + s := by omega
  rw [h]

theorem cycleVisited_zero (p : Nat → String) (N j : Nat) :
    cycleVisited p N j 0 = [] := by
  simp [cycleVisited]

theorem cycleVisited_succ (p : Nat → String) (N j k : Nat) :
    cycleVisited p N j (k + 1) = some (p ((j + 1 + k) % N)) :: cycleVisited p N j k := by
  simp [cycleVisited, List.range_succ]

theorem mem_cycleVisited (p : Nat → String) (N j k : Nat) (x : Option String) :
    x ∈ cycleVisited p N j k ↔ ∃ t, t < k ∧ x = some (p ((j + 1 + t) % N)) := by
  simp only [cycleVisited, List.mem_reverse, List.mem_map, List.mem_range]
  constructor
  · rintro ⟨t, ht, rfl⟩; exact ⟨t, ht, rfl⟩
  · rintro ⟨t, ht, rfl⟩; exact ⟨t, ht, rfl⟩

theorem cycleTable_keys_nodup (p : Nat → String) (li : Nat → Nat) (fi : Nat → String)
    (st : Nat → Int) (N : Nat)
    (hinj : ∀ i, i < N → ∀ j, j < N → p i = p j → i = j) :
    ((cycleTable p li fi st N).map Prod.fst).Nodup := by
  simp only [cycleTable, List.map_map]
  refine List.Nodup.map_on ?_ (List.nodup_range N)
  intro x hx y hy hxy
  exact hinj x (List.mem_range.mp hx) y (List.mem_range.mp hy) hxy

theorem cycle_resolve (p : Nat → String) (li : Nat → Nat) (fi : Nat → String)
    (st : Nat → Int) (N : Nat) (entries : List (String × Redirect))
    (hinj : ∀ i, i < N → ∀ j, j < N → p i = p j → i = j)
    (hperm : entries.Perm (cycleTable p li fi st N))
    (u : Nat) (hu : u < N) :
    RedirectMap.get_redirect [(ALL_DOMAINS, entries)] (p u) (some ALL_DOMAINS) =
      some (cycleRule p li fi st N u) := by
  rw [get_redirect_single_bucket]
  refine alook_eq_some_of_mem_nodup ?_ ?_
  · exact ((hperm.map Prod.fst).nodup_iff).mpr (cycleTable_keys_nodup p li fi st N hinj)
  · exact hperm.symm.subset (List.mem_map.mpr ⟨u, List.mem_range.mpr hu, rfl⟩)

theorem cycle_target_fresh (p : Nat → String) (li : Nat → Nat) (fi : Nat → String)
    (st : Nat → Int) (N j t : Nat) (hN : 0 < N)
    (hinj : ∀ i, i < N → ∀ j, j < N → p i = p j → i = j)
    (htN : t + 1 < N) :
    (cycleRule p li fi st N ((j + (t + 1)) % N)).target ∉
      (cycleTrail p li fi st N j t).map (fun x => x.target) := by
  rw [cycleTrail_targets]
  intro hmem
  obtain ⟨s, hs, heq⟩ := List.mem_map.mp hmem
  rw [List.mem_range] at hs
  have hidx : (((j + (t + 1)) % N) + 1) % N = (j + 1 + (t + 1)) % N := by
    rw [Nat.mod_add_mod]; congr 1; omega
  simp only [cycleRule, hidx, Option.some.injEq] at heq
  have hs' : s < N := lt_trans hs htN
  have := hinj _ (Nat.mod_lt _ hN) _ (Nat.mod_lt _ hN) heq
  have := mod_shift_inj (j + 1) hs' htN this
  omega

theorem cycle_gc (p : Nat → String) (li : Nat → Nat) (fi : Nat → String)
    (st : Nat → Int) (N : Nat) (entries : List (String × Redirect))
    (hN : 0 < N)
    (hinj : ∀ i, i < N → ∀ j, j < N → p i = p j → i = j)
    (hplain : ∀ i, i < N → split_url (p i) = (ALL_DOMAINS, p i))
    (hperm : entries.Perm (cycleTable p li fi st N))
    (j : Nat) (hj : j < N) :
    ∀ d t fuel, t + d + 1 = N → N - t ≤ fuel →
      getCircular [(ALL_DOMAINS, entries)] false fuel (cycleTrail p li fi st N j t) =
        .ok (some (cycleTrail p li fi st N j (N - 1))) := by
  intro d
  induction d with
  | zero =>
      intro t fuel ht hfuel
      obtain rfl : t = N - 1 := by omega
      obtain ⟨f, rfl⟩ : ∃ f, fuel = f + 1 := ⟨fuel - 1, by omega⟩
      have hidx : (((j + (N - 1)) % N) + 1) % N = j := by
        rw [Nat.mod_add_mod]
        have h : j + (N - 1) + 1 = j + N := by omega
        rw [h, Nat.add_mod_right, Nat.mod_eq_of_lt hj]
      have hts : (cycleRule p li fi st N ((j + (N - 1)) % N)).target_set false =
          .ok [some (p j)] := by
        simp [cycleRule, Redirect.target_set, hidx]
      simp only [getCircular_succ, cycleTrail_getLast, hts]
      have hres : RedirectMap.get_redirect [(ALL_DOMAINS, entries)] (split_url (p j)).2
          (some (split_url (p j)).1) = some (cycleRule p li fi st N j) := by
        simp only [hplain j hj]
        exact cycle_resolve p li fi st N entries hinj hperm j hj
      have hmem : (cycleRule p li fi st N j).target ∈
          (cycleTrail p li fi st N j (N - 1)).map (fun x => x.target) := by
        rw [cycleTrail_targets]
        refine List.mem_map.mpr ⟨0, List.mem_range.mpr (by omega), ?_⟩
        simp [cycleRule]
      rw [gcStep_found _ _ _ _ _ _ hres hmem]
  | succ d ih =>
      intro t fuel ht hfuel
      have htN : t + 1 < N := by omega
      obtain ⟨f, rfl⟩ : ∃ f, fuel = f + 1 := ⟨fuel - 1, by omega⟩
      have hidx : (((j + t) % N) + 1) % N = (j + (t + 1)) % N := by
        rw [Nat.mod_add_mod]
        have h2 : j + t + 1 = j + (t + 1) := by omega
        rw [h2]
      have hts : (cycleRule p li fi st N ((j + t) % N)).target_set false =
          .ok [some (p ((j + (t + 1)) % N))] := by
        simp [cycleRule, Redirect.target_set, hidx]
      simp only [getCircular_succ, cycleTrail_getLast, hts]
      have hXlt : (j + (t + 1)) % N < N := Nat.mod_lt _ hN
      have hres : RedirectMap.get_redirect [(ALL_DOMAINS, entries)]
          (split_url (p ((j + (t + 1)) % N))).2
          (some (split_url (p ((j + (t + 1)) % N))).1) =
          some (cycleRule p li fi st N ((j + (t + 1)) % N)) := by
        simp only [hplain _ hXlt]
        exact cycle_resolve p li fi st N entries hinj hperm _ hXlt
      have hmem := cycle_target_fresh p li fi st N j t hN hinj htN
      rw [gcStep_resolve _ _ _ _ _ _ hres hmem, ← cycleTrail_succ,
        ih (t + 1) f (by omega) (by omega)]

theorem cycle_bfs (p : Nat → String) (li : Nat → Nat) (fi : Nat → String)
    (st : Nat → Int) (N : Nat) (entries : List (String × Redirect))
    (hN : 0 < N)
    (hinj : ∀ i, i < N → ∀ j, j < N → p i = p j → i = j)
    (hplain : ∀ i, i < N → split_url (p i) = (ALL_DOMAINS, p i))
    (hst : ∀ i, i < N → st i ∈ REDIRECT_CODES)
    (hperm : entries.Perm (cycleTable p li fi st N))
    (j : Nat) (hj : j < N) :
    ∀ d k fuel, k + d = N → 2 * N ≤ fuel + k →
      bfsLoop [(ALL_DOMAINS, entries)] false (cycleRule p li fi st N j) fuel
        (cycleVisited p N j k) [some (p ((j + 1 + k) % N))] =
        .ok (some (cycleTrail p li fi st N j (N - 1))) := by
  intro d
  induction d with
  | zero =>
      intro k fuel hk hfuel
      have hkeq : N = k := by omega
      subst hkeq
      obtain ⟨f, rfl⟩ : ∃ f, fuel = f + 1 := ⟨fuel - 1, by omega⟩
      have hidx : (j + 1 + N) % N = (j + 1) % N := Nat.add_mod_right (j + 1) N
      rw [hidx]
      have hv : some (p ((j + 1) % N)) ∈ cycleVisited p N j N := by
        rw [mem_cycleVisited]
        exact ⟨0, hN, rfl⟩
      have hgc : getCircular [(ALL_DOMAINS, entries)] false (f + 1)
          [cycleRule p li fi st N j] = .ok (some (cycleTrail p li fi st N j (N - 1))) := by
        rw [← cycleTrail_zero p li fi st N j hj]
        exact cycle_gc p li fi st N entries hN hinj hplain hperm j hj (N - 1) 0 (f + 1)
          (by omega) (by omega)
      exact bfsLoop_step_revisit _ _ _ _ _ _ _ _ hv hgc
  | succ d ih =>
      intro k fuel hk hfuel
      have hkN : k < N := by omega
      obtain ⟨f, rfl⟩ : ∃ f, fuel = f + 1 := ⟨fuel - 1, by omega⟩
      have hXlt : (j + 1 + k) % N < N := Nat.mod_lt _ hN
      have hnv : some (p ((j + 1 + k) % N)) ∉ cycleVisited p N j k := by
        rw [mem_cycleVisited]
        rintro ⟨t, ht, heq⟩
        rw [Option.some.injEq] at heq
        have htlt : t < N := lt_trans ht hkN
        have := hinj _ (Nat.mod_lt _ hN) _ (Nat.mod_lt _ hN) heq.symm
        have := mod_shift_inj (j + 1) htlt hkN this
        omega
      have hdom : (alook [(ALL_DOMAINS, entries)]
          (split_url (p ((j + 1 + k) % N))).1).isSome = true := by
        simp only [hplain _ hXlt, alook_single_bucket, Option.isSome_some]
      have hres : RedirectMap.get_redirect [(ALL_DOMAINS, entries)]
          (split_url (p ((j + 1 + k) % N))).2
          (some (split_url (p ((j + 1 + k) % N))).1) =
          some (cycleRule p li fi st N ((j + 1 + k) % N)) := by
        simp only [hplain _ hXlt]
        exact cycle_resolve p li fi st N entries hinj hperm _ hXlt
      have hred : (cycleRule p li fi st N ((j + 1 + k) % N)).is_redirect = true := by
        simp only [cycleRule, Redirect.is_redirect]
        exact decide_eq_true (hst _ hXlt)
      have hidx : (((j + 1 + k) % N) + 1) % N = (j + 1 + (k + 1)) % N := by
        rw [Nat.mod_add_mod]
        have h2 : j + 1 + k + 1 = j + 1 + (k + 1) := by omega
        rw [h2]
      have hts : (cycleRule p li fi st N ((j + 1 + k) % N)).target_set false =
          .ok [some (p ((j + 1 + (k + 1)) % N))] := by
        simp [cycleRule, Redirect.target_set, hidx]
      rw [bfsLoop_step_new _ _ _ _ _ _ _ _ _ hnv hdom hres hred hts, ← cycleVisited_succ,
        List.nil_append]
      exact ih (k + 1) f (by omega) (by omega)

theorem cycle_targets_complete (p : Nat → String) (li : Nat → Nat) (fi : Nat → String)
    (st : Nat → Int) (N : Nat) (hN : 0 < N) (j u : Nat) (hu : u < N) :
    some (p u) ∈ (cycleTrail p li fi st N j (N - 1)).map (fun r => r.target) := by
  rw [cycleTrail_targets]
  obtain ⟨s, hsN, hs⟩ := mod_shift_surj hN (j + 1) hu
  refine List.mem_map.mpr ⟨s, List.mem_range.mpr (by omega), ?_⟩
  rw [hs]

/-- C1: a table whose rules form one circular chain of length `N` —
rule `i` lives at path `p i` and redirects to `p ((i+1) mod N)` — gets
exactly one circular-redirect diagnostic from `clean_circular`, whatever
`N ≥ 1` is and whichever member rule the dict iteration reaches first
(the entry list is an arbitrary permutation of the cycle).  The first
scanned rule's BFS detects the revisit, `get_circular` reconstructs the
whole cycle, and `part_of_circular` then makes the scan skip every other
member.  (Stated for `APPEND_SLASH` off; with it on the outcome
additionally depends on Python's unspecified set iteration order — see
`c3_validation_raises`.) -/
theorem c1_cycle_reported_once (N : Nat) (p : Nat → String) (li : Nat → Nat)
    (fi : Nat → String) (st : Nat → Int) (entries : List (String × Redirect))
    (hN : 0 < N)
    (hinj : ∀ i, i < N → ∀ j, j < N → p i = p j → i = j)
    (hplain : ∀ i, i < N → split_url (p i) = (ALL_DOMAINS, p i))
    (hst : ∀ i, i < N → st i ∈ REDIRECT_CODES)
    (hperm : entries.Perm (cycleTable p li fi st N)) :
    ∃ tail, RedirectMap.errors [(ALL_DOMAINS, entries)] false =
      .ok ["Possible circular redirect: " ++ tail] := by
  rw [errors_eq_clean_circular]
  unfold RedirectMap.clean_circular
  rw [entriesOf_single_bucket]
  obtain ⟨hd, rest, rfl⟩ : ∃ hd rest, entries = hd :: rest := by
    cases hE : entries with
    | nil =>
        exfalso
        have h := hperm.length_eq
        rw [hE] at h
        simp [cycleTable] at h
        omega
    | cons hd rest => exact ⟨hd, rest, rfl⟩
  obtain ⟨j, hjr, hj_eq⟩ := List.mem_map.mp (hperm.subset (List.mem_cons_self ..))
  rw [List.mem_range] at hjr
  obtain rfl := hj_eq.symm
  have hlen : rest.length + 1 = N := by
    have h := hperm.length_eq
    simp [cycleTable] at h
    exact h
  simp only [scanLoop, List.length_cons, if_neg (List.not_mem_nil (some (p j)))]
  have hts : (cycleRule p li fi st N j).target_set false =
      .ok [some (p ((j + 1) % N))] := by
    simp [cycleRule, Redirect.target_set]
  have hbfs := cycle_bfs p li fi st N ((p j, cycleRule p li fi st N j) :: rest)
    hN hinj hplain hst hperm j hjr N 0 (2 * (rest.length + 1) + 3) (by omega) (by omega)
  rw [cycleVisited_zero] at hbfs
  simp only [Nat.add_zero] at hbfs
  simp only [hts, hbfs]
  rw [scanLoop_all_skipped _ false _ rest _ _ ?_]
  · exact ⟨_, rfl⟩
  · intro e he
    obtain ⟨u, hur, he_eq⟩ :=
      List.mem_map.mp (hperm.subset (List.mem_cons_of_mem _ he))
    rw [List.mem_range] at hur
    rw [List.nil_append, ← he_eq]
    exact cycle_targets_complete p li fi st N hN j u hur

/-! Facts about the parametric 410-terminated chain table. -/

theorem chainTable_keys_nodup (p : Nat → String) (li : Nat → Nat) (fi : Nat → String)
    (st : Nat → Int) (K : Nat)
    (hinj : ∀ i, i < K + 1 → ∀ j, j < K + 1 → p i = p j → i = j) :
    ((chainTable p li fi st K).map Prod.fst).Nodup := by
  simp only [chainTable, List.map_map]
  refine List.Nodup.map_on ?_ (List.nodup_range (K + 1))
  intro x hx y hy hxy
  exact hinj x (List.mem_range.mp hx) y (List.mem_range.mp hy) hxy

theorem chain_resolve (p : Nat → String) (li : Nat → Nat) (fi : Nat → String)
    (st : Nat → Int) (K : Nat) (entries : List (String × Redirect))
    (hinj : ∀ i, i < K + 1 → ∀ j, j < K + 1 → p i = p j → i = j)
    (hperm : entries.Perm (chainTable p li fi st K))
    (u : Nat) (hu : u < K + 1) :
    RedirectMap.get_redirect [(ALL_DOMAINS, entries)] (p u) (some ALL_DOMAINS) =
      some (chainRule p li fi st K u) := by
  rw [get_redirect_single_bucket]
  refine alook_eq_some_of_mem_nodup ?_ ?_
  · exact ((hperm.map Prod.fst).nodup_iff).mpr (chainTable_keys_nodup p li fi st K hinj)
  · exact hperm.symm.subset (List.mem_map.mpr ⟨u, List.mem_range.mpr hu, rfl⟩)

theorem chain_walk (p : Nat → String) (li : Nat → Nat) (fi : Nat → String)
    (st : Nat → Int) (K : Nat) (entries : List (String × Redirect))
    (hinj : ∀ i, i < K + 1 → ∀ j, j < K + 1 → p i = p j → i = j)
    (hplain : ∀ i, i < K + 1 → split_url (p i) = (ALL_DOMAINS, p i))
    (hst : ∀ i, i < K → st i ∈ REDIRECT_CODES)
    (hperm : entries.Perm (chainTable p li fi st K))
    (destR : Redirect) :
    ∀ d u fuel (visited : List (Option String)), u + d = K → d + 2 ≤ fuel →
      (∀ v, u ≤ v → v ≤ K → some (p v) ∉ visited) →
      bfsLoop [(ALL_DOMAINS, entries)] false destR fuel visited [some (p u)] = .ok none := by
  intro d
  induction d with
  | zero =>
      intro u fuel visited hu hfuel hvis
      have hueq : K = u := by omega
      subst hueq
      obtain ⟨f, rfl⟩ : ∃ f, fuel = f + 1 := ⟨fuel - 1, by omega⟩
      have hnv : some (p K) ∉ visited := hvis K le_rfl le_rfl
      have hdom : (alook [(ALL_DOMAINS, entries)] (split_url (p K)).1).isSome = true := by
        simp only [hplain K (by omega), alook_single_bucket, Option.isSome_some]
      have hres : RedirectMap.get_redirect [(ALL_DOMAINS, entries)] (split_url (p K)).2
          (some (split_url (p K)).1) = some (chainRule p li fi st K K) := by
        simp only [hplain K (by omega)]
        exact chain_resolve p li fi st K entries hinj hperm K (by omega)
      have hred : (chainRule p li fi st K K).is_redirect = false := by
        simp only [chainRule, if_neg (Nat.lt_irrefl K)]
        rfl
      rw [bfsLoop_step_gone _ _ _ _ _ _ _ _ hnv hdom hres hred]
      cases f <;> rfl
  | succ d ih =>
      intro u fuel visited hu hfuel hvis
      have huK : u < K := by omega
      obtain ⟨f, rfl⟩ : ∃ f, fuel = f + 1 := ⟨fuel - 1, by omega⟩
      have hnv : some (p u) ∉ visited := hvis u le_rfl (by omega)
      have hdom : (alook [(ALL_DOMAINS, entries)] (split_url (p u)).1).isSome = true := by
        simp only [hplain u (by omega), alook_single_bucket, Option.isSome_some]
      have hres : RedirectMap.get_redirect [(ALL_DOMAINS, entries)] (split_url (p u)).2
          (some (split_url (p u)).1) = some (chainRule p li fi st K u) := by
        simp only [hplain u (by omega)]
        exact chain_resolve p li fi st K entries hinj hperm u (by omega)
      have hred : (chainRule p li fi st K u).is_redirect = true := by
        simp only [chainRule, if_pos huK, Redirect.is_redirect]
        exact decide_eq_true (hst u huK)
      have hts : (chainRule p li fi st K u).target_set false = .ok [some (p (u + 1))] := by
        simp [chainRule, if_pos huK, Redirect.target_set]
      rw [bfsLoop_step_new _ _ _ _ _ _ _ _ _ hnv hdom hres hred hts, List.nil_append]
      refine ih (u + 1) f (some (p u) :: visited) (by omega) (by omega) ?_
      intro v hv1 hv2 hmem
      rcases List.mem_cons.mp hmem with h | h
      · rw [Option.some.injEq] at h
        have := hinj v (by omega) u (by omega) h
        omega
      · exact hvis v (by omega) hv2 h

/-- C2: the BFS of `clean_circular` follows an edge out of a resolved
rule only under the `is_redirect` guard (`status_code ∈
{301,302,303,307}`, line 165), so a chain `p 0 → … → p K` whose last
rule is a 410 — even one whose target points back at the chain's head —
is never reported as circular, for every chain length and every dict
iteration order (the entry list is an arbitrary permutation of the
chain): validation ends with an empty error list and `is_valid()`
true. -/
theorem c2_gone_chain_not_circular (K : Nat) (p : Nat → String) (li : Nat → Nat)
    (fi : Nat → String) (st : Nat → Int) (entries : List (String × Redirect))
    (hinj : ∀ i, i < K + 1 → ∀ j, j < K + 1 → p i = p j → i = j)
    (hplain : ∀ i, i < K + 1 → split_url (p i) = (ALL_DOMAINS, p i))
    (hst : ∀ i, i < K → st i ∈ REDIRECT_CODES)
    (hperm : entries.Perm (chainTable p li fi st K)) :
    RedirectMap.errors [(ALL_DOMAINS, entries)] false = .ok [] ∧
    RedirectMap.is_valid [(ALL_DOMAINS, entries)] false = .ok true := by
  have herr : RedirectMap.errors [(ALL_DOMAINS, entries)] false = .ok [] := by
    rw [errors_eq_clean_circular]
    unfold RedirectMap.clean_circular
    rw [entriesOf_single_bucket]
    have hlen : entries.length = K + 1 := by
      have h := hperm.length_eq
      simp [chainTable] at h
      exact h
    refine scanLoop_all_clean _ false _ entries [] [] ?_
    intro e he
    obtain ⟨i, hir, he_eq⟩ := List.mem_map.mp (hperm.subset he)
    rw [List.mem_range] at hir
    obtain rfl := he_eq.symm
    by_cases hiK : i < K
    · refine ⟨[some (p (i + 1))], by simp [chainRule, if_pos hiK, Redirect.target_set], ?_⟩
      exact chain_walk p li fi st K entries hinj hplain hst hperm _ (K - (i + 1)) (i + 1) _ []
        (by omega) (by omega) (fun v _ _ h => (List.not_mem_nil _) h)
    · have hiK' : i = K := by omega
      subst hiK'
      refine ⟨[some (p 0)], by simp [chainRule, if_neg (Nat.lt_irrefl i), Redirect.target_set], ?_⟩
      exact chain_walk p li fi st i entries hinj hplain hst hperm _ i 0 _ []
        (by omega) (by omega) (fun v _ _ h => (List.not_mem_nil _) h)
  refine ⟨herr, ?_⟩
  simp [RedirectMap.is_valid, herr, Except.map]

/-- C1 witness: the 2-cycle `/a → /b → /a` (both 301) yields exactly one
circular-redirect diagnostic. -/
theorem c1_witness :
    (0 : Nat) < 2 ∧
    ∃ tail, RedirectMap.errors
      [(ALL_DOMAINS, cycleTable (fun i => if i = 0 then "/a" else "/b")
        (fun i => i) (fun _ => "c.csv") (fun _ => 301) 2)] false =
      .ok ["Possible circular redirect: " ++ tail] := by
  refine ⟨by decide, ?_⟩
  exact c1_cycle_reported_once 2 (fun i => if i = 0 then "/a" else "/b")
    (fun i => i) (fun _ => "c.csv") (fun _ => 301) _
    (by decide) (by decide) (by decide) (by decide) (List.Perm.refl _)

/-- C2 witness: the chain `/a → /b → /c` with `/c` a 410 whose target
points back at `/a` produces no diagnostics and a valid table. -/
theorem c2_witness :
    RedirectMap.errors
      [(ALL_DOMAINS, chainTable (fun i => if i = 0 then "/a" else if i = 1 then "/b" else "/c")
        (fun i => i) (fun _ => "c.csv") (fun _ => 301) 2)] false = .ok [] ∧
    RedirectMap.is_valid
      [(ALL_DOMAINS, chainTable (fun i => if i = 0 then "/a" else if i = 1 then "/b" else "/c")
        (fun i => i) (fun _ => "c.csv") (fun _ => 301) 2)] false = .ok true := by
  exact c2_gone_chain_not_circular 2 (fun i => if i = 0 then "/a" else if i = 1 then "/b" else "/c")
    (fun i => i) (fun _ => "c.csv") (fun _ => 301) _
    (by decide) (by decide) (by decide) (List.Perm.refl _)
